import Mathlib

/-!
Verification of the process-lifecycle core of the hcp-terraform-mcp-server
repository (cmd/hcp-terraform-mcp-server/main.go).

The supervisor `runStdioServer` is embedded as a small labelled transition
system: one foreground execution unit (the supervisor itself), one background
execution unit (the goroutine running `stdioServer.Listen` and sending its
terminal result on the one-slot channel `errC`), and an environment label
delivering an OS interruption through the signal-bound context.  Observable
actions (telemetry Track, analytics Close, the deferred teardown, channel
sends, the stderr banner) are recorded in a chronological trace.
-/

namespace HcpMcp

/-- Errors are modelled as strings (Go `error` values are only compared against
nil and wrapped with a message prefix in this code). -/
abbrev Err := String

/-- Logging destination of a logrus logger: default process output (what
`log.New()` uses) or a file opened from a path. -/
inductive LogDest where
  | processDefault
  | file (path : String)
deriving DecidableEq, Repr

/-- Logrus logging levels that appear in main.go (`log.New()` default is Info;
`initLogger` raises a file-backed logger to Debug). -/
inductive LogLevel where
  | info
  | debug
deriving DecidableEq, Repr

/-- Embedding of the `*log.Logger` state that main.go configures: its level and
its output destination. -/
structure Logger where
  level : LogLevel
  output : LogDest
deriving DecidableEq, Repr

/-- The logger returned by logrus `log.New()`: Info level, default process
output (stderr). -/
def logNew : Logger := { level := .info, output := .processDefault }

/-- `initLogger` (main.go:109-124): empty path yields `log.New()`; otherwise the
file at `outPath` is opened (append/create), a failure is wrapped with
"failed to open log file: ", and on success the logger is set to Debug level
with the file as output.  The file system is passed in as `openFile`. -/
def initLogger (openFile : String → Except Err Unit) (outPath : String) :
    Except Err Logger :=
  if outPath = "" then .ok logNew
  else
    match openFile outPath with
    | .error e => .error ("failed to open log file: " ++ e)
    | .ok _ => .ok { level := .debug, output := .file outPath }

/-- `runConfig` (main.go:126-131). -/
structure runConfig where
  readOnly : Bool
  logger : Logger
  logCommands : Bool
  enabledToolsets : List String
deriving DecidableEq, Repr

/-- Control point of the foreground supervisor inside `runStdioServer`
(main.go:133-200), in source order. -/
inductive Phase where
  /-- about to log "initializing analytics" and construct the Segment sink -/
  | pInit
  /-- about to call `analytics.Track("mcp_server_started", ...)` (line 140) -/
  | pTrack
  /-- about to install the signal-bound context (line 148); `defer
  analytics.Close()` is registered just before -/
  | pCtx
  /-- about to do server/tool setup (lines 150-171) and `make(chan error, 1)` -/
  | pSetup
  /-- about to spawn the listen goroutine (line 175) -/
  | pSpawn
  /-- about to print the stderr banner (line 187) -/
  | pPrint
  /-- blocked at the `select` (lines 190-197): the Running state -/
  | pSelect
  /-- the errC case received a non-nil error `e`; about to run the deferred
  teardown and return the wrapped error (line 195) -/
  | pRetErr (e : Err)
  /-- about to run the deferred teardown and return nil (line 199) -/
  | pRetNil
  /-- returned from `runStdioServer` with result `r` -/
  | pDone (r : Option Err)
deriving DecidableEq, Repr

/-- Control point of the background goroutine (main.go:175-184). -/
inductive GoPhase where
  /-- not yet spawned -/
  | gNone
  /-- spawned; about to set up `in, out` (wrapping them in the IOLogger tap
  when `cfg.logCommands` is set, lines 178-181) -/
  | gStart
  /-- running `stdioServer.Listen(ctx, in, out)` -/
  | gListen
  /-- `Listen` returned `r`; about to execute `errC <- r` (line 183) -/
  | gSend (r : Option Err)
  /-- the send completed; the goroutine is finished -/
  | gDone
deriving DecidableEq, Repr

/-- Observable actions of one run, recorded chronologically. -/
inductive Event where
  /-- `cfg.logger.Info("initializing analytics")` plus sink construction -/
  | evInitAnalytics
  /-- `analytics.Track("mcp_server_started", ...)` submitted to the sink -/
  | evTrackStarted
  /-- `signal.NotifyContext(...)` installed -/
  | evInstallSignal
  /-- server construction and tool registration (lines 150-171) -/
  | evSetup
  /-- the listen goroutine is started (line 175) -/
  | evSpawn
  /-- the stderr banner "HCP Terraform MCP Server running on stdio" -/
  | evPrintRunning
  /-- the goroutine chose its streams: `b` is whether the IOLogger tap wraps
  stdin/stdout (`cfg.logCommands`) -/
  | evTapActive (b : Bool)
  /-- `cfg.logger.Infof("shutting down server...")` on the ctx.Done path -/
  | evLogShutdown
  /-- `errC <- r` completed -/
  | evSend (r : Option Err)
  /-- deferred `stop()` ran -/
  | evStop
  /-- deferred `analytics.Close()` ran -/
  | evClose
  /-- `runStdioServer` returned `r` -/
  | evRet (r : Option Err)
deriving DecidableEq, Repr

/-- Joint state of the supervisor, the goroutine, the one-slot channel `errC`
(`none` = empty, `some r` = holding `r`), the signal context, and the trace. -/
structure SysState where
  phase : Phase
  gph : GoPhase
  ch : Option (Option Err)
  ctxInstalled : Bool
  ctxCancelled : Bool
  trace : List Event
deriving DecidableEq, Repr

/-- Capacity of `errC` as written in main.go:174: `make(chan error, 1)`. -/
def errCCap : Nat := 1

/-- Number of buffered values in the channel. -/
def chanLen : Option (Option Err) → Nat
  | none => 0
  | some _ => 1

/-- `fmt.Errorf("error running server: %w", err)` (main.go:195). -/
def wrapErr (e : Err) : Err := "error running server: " ++ e

/-- Scheduling labels: which execution unit (or the environment) takes the next
step. -/
inductive Label where
  /-- the supervisor executes its next non-blocking action -/
  | fg
  /-- the OS delivers SIGINT/SIGTERM; the signal-bound context is cancelled -/
  | interrupt
  /-- the `select` resolves through `case <-ctx.Done()` -/
  | selCtx
  /-- the `select` resolves through `case err := <-errC` -/
  | selRecv
  /-- the goroutine executes its stream setup -/
  | goStep
  /-- `stdioServer.Listen` returns with terminal result `r` -/
  | goListenRet (r : Option Err)
  /-- the goroutine executes `errC <- r` -/
  | goSend
deriving DecidableEq, Repr

/-- One transition of the system.  `none` means the label is not enabled in
state `s` (the corresponding unit would block or the event cannot occur). -/
def step (cfg : runConfig) (s : SysState) : Label → Option SysState
  | .fg =>
    match s.phase with
    | .pInit =>
      some { s with phase := .pTrack, trace := s.trace ++ [.evInitAnalytics] }
    | .pTrack =>
      some { s with phase := .pCtx, trace := s.trace ++ [.evTrackStarted] }
    | .pCtx =>
      some { s with
             phase := .pSetup, ctxInstalled := true,
             trace := s.trace ++ [.evInstallSignal] }
    | .pSetup =>
      some { s with phase := .pSpawn, trace := s.trace ++ [.evSetup] }
    | .pSpawn =>
      some { s with
             phase := .pPrint, gph := .gStart,
             trace := s.trace ++ [.evSpawn] }
    | .pPrint =>
      some { s with phase := .pSelect, trace := s.trace ++ [.evPrintRunning] }
    | .pRetErr e =>
      some { s with
             phase := .pDone (some (wrapErr e)),
             trace := s.trace ++ [.evStop, .evClose,
                                  .evRet (some (wrapErr e))] }
    | .pRetNil =>
      some { s with
             phase := .pDone none,
             trace := s.trace ++ [.evStop, .evClose, .evRet none] }
    | _ => none
  | .interrupt =>
    if s.ctxInstalled then some { s with ctxCancelled := true } else none
  | .selCtx =>
    match s.phase, s.ctxCancelled with
    | .pSelect, true =>
      some { s with phase := .pRetNil, trace := s.trace ++ [.evLogShutdown] }
    | _, _ => none
  | .selRecv =>
    match s.phase, s.ch with
    | .pSelect, some r =>
      some { s with
             ch := none,
             phase := (match r with
                       | some e => .pRetErr e
                       | none => .pRetNil) }
    | _, _ => none
  | .goStep =>
    match s.gph with
    | .gStart =>
      some { s with
             gph := .gListen,
             trace := s.trace ++ [.evTapActive cfg.logCommands] }
    | _ => none
  | .goListenRet r =>
    match s.gph with
    | .gListen => some { s with gph := .gSend r }
    | _ => none
  | .goSend =>
    match s.gph with
    | .gSend r =>
      if chanLen s.ch < errCCap
      then some { s with
                  ch := some r, gph := .gDone,
                  trace := s.trace ++ [.evSend r] }
      else none
    | _ => none

/-- The state at entry of `runStdioServer`. -/
def initState : SysState :=
  { phase := .pInit, gph := .gNone, ch := none,
    ctxInstalled := false, ctxCancelled := false, trace := [] }

/-- Run a schedule (list of labels) from a state; `none` if some label in it is
not enabled. -/
def runSched (cfg : runConfig) : SysState → List Label → Option SysState
  | s, [] => some s
  | s, l :: ls =>
    match step cfg s l with
    | some s' => runSched cfg s' ls
    | none => none

/-- A state is reachable when some schedule leads to it from the entry state. -/
def Reachable (cfg : runConfig) (s : SysState) : Prop :=
  ∃ ls, runSched cfg initState ls = some s

/-- The supervisor has returned. -/
def isDone : Phase → Bool
  | .pDone _ => true
  | _ => false

/-- Whether an event is the analytics Close. -/
def isCloseEv : Event → Bool
  | .evClose => true
  | _ => false

/-- Number of `analytics.Close()` occurrences in a trace. -/
def countClose (tr : List Event) : Nat := tr.countP isCloseEv

/-- Whether an event is a channel send. -/
def isSendEv : Event → Bool
  | .evSend _ => true
  | _ => false

/-- Number of `errC <- r` occurrences in a trace. -/
def countSend (tr : List Event) : Nat := tr.countP isSendEv

/-- The fixed trace produced by the supervisor before it reaches Running: the
telemetry Track is at position 1, the goroutine spawn at position 4. -/
def startPrefix : List Event :=
  [.evInitAnalytics, .evTrackStarted, .evInstallSignal, .evSetup, .evSpawn]

/-- The deferred teardown followed by the return, as one trace segment. -/
def teardownSeq (r : Option Err) : List Event := [.evStop, .evClose, .evRet r]

/-- The exact trace the supervisor has produced while still in its start-up
phases (before the goroutine exists). -/
def preTrace : Phase → Option (List Event)
  | .pInit => some []
  | .pTrack => some [.evInitAnalytics]
  | .pCtx => some [.evInitAnalytics, .evTrackStarted]
  | .pSetup => some [.evInitAnalytics, .evTrackStarted, .evInstallSignal]
  | .pSpawn =>
    some [.evInitAnalytics, .evTrackStarted, .evInstallSignal, .evSetup]
  | _ => none

/-- One RPC message: an opaque framed payload. -/
abbrev Msg := String

/-- An error-shaped response message produced from a failed handler
invocation. -/
def errorResponse (e : Err) : Msg := "error: " ++ e

/-- Modelled from the spec: the Message Loop / Transport Listener (the mcp-go
library's `stdioServer.Listen`, called at main.go:183, is not part of this
repository's sources).  Per the spec it reads one request at a time from the
input; on end-of-stream it terminates cleanly (nil); a handler failure is
converted into an error-shaped response and never crashes the loop; a
transport-level write failure terminates the loop with that error.  Returns
the responses written and the terminal result. -/
def messageLoop (handle : Msg → Except Err Msg) (writeOut : Msg → Option Err) :
    List Msg → List Msg × Option Err
  | [] => ([], none)
  | m :: rest =>
    let resp := match handle m with
      | .ok r => r
      | .error e => errorResponse e
    match writeOut resp with
    | some werr => ([resp], some werr)
    | none =>
      let res := messageLoop handle writeOut rest
      (resp :: res.1, res.2)

/-- Modelled from the spec: the Recording Tap (`iolog.NewIOLogger` of the
github-mcp-server log package, wrapped around stdin/stdout at
main.go:178-181, is not part of this repository's sources).  Per the spec it
duplicates every byte read and written into its structured log, in transit
order, without altering the bytes delivered to or from the caller.  The
record is a list of (inbound?, byte) pairs. -/
structure IOLogger where
  recorded : List (Bool × Nat)
deriving DecidableEq, Repr

/-- Read the whole input stream through the tap: each byte is appended to the
record (direction flag true = inbound) and delivered unchanged. -/
def tapReadAll : List Nat → IOLogger → List Nat × IOLogger
  | [], t => ([], t)
  | b :: bs, t =>
    let res := tapReadAll bs ⟨t.recorded ++ [(true, b)]⟩
    (b :: res.1, res.2)

/-- Write a byte sequence through the tap: each byte is appended to the
record (direction flag false = outbound) and delivered unchanged to the
underlying output. -/
def tapWriteAll : List Nat → IOLogger → List Nat × IOLogger
  | [], t => ([], t)
  | b :: bs, t =>
    let res := tapWriteAll bs ⟨t.recorded ++ [(false, b)]⟩
    (b :: res.1, res.2)

/-- Reading without the tap: the Message Loop sees the input bytes as they
are. -/
def rawReadAll (bs : List Nat) : List Nat := bs

/-- Writing without the tap: the output receives the written bytes as they
are. -/
def rawWriteAll (bs : List Nat) : List Nat := bs

/-- Observable process exit: the exit status and the fatal message printed by
stdlog.Fatal, when any. -/
structure ProcOutcome where
  exitCode : Nat
  stderrFatal : Option String
deriving DecidableEq, Repr

/-- stdioCmd's handling of the result of `runStdioServer` (main.go:73-75): a
non-nil error goes to stdlog.Fatal, which prints the message and exits with
status 1; a nil result lets the command return normally (exit status 0). -/
def stdioCmdFinish (r : Option Err) : ProcOutcome :=
  match r with
  | some e =>
    { exitCode := 1, stderrFatal := some ("failed to run stdio server:" ++ e) }
  | none => { exitCode := 0, stderrFatal := none }

/-- Outcome of stdioCmd's startup sequence: either the process aborts via
stdlog.Fatal before any session exists, or the session runs with the built
configuration. -/
inductive CmdResult where
  | fatalNoSession (msg : String)
  | sessionRun (cfg : runConfig)
deriving DecidableEq, Repr

/-- The configuration surface stdioCmd reads from viper (main.go:57-66). -/
structure ViperCfg where
  logFile : String
  readOnly : Bool
  toolsets : List String
  enableCommandLogging : Bool
deriving DecidableEq, Repr

/-- stdioCmd's Run function up to the call of `runStdioServer`
(main.go:56-76): the logger is resolved first; a logger failure is
stdlog.Fatal (the process aborts, no session starts); otherwise a runConfig
is built and the session runs. -/
def stdioCmdRun (openFile : String → Except Err Unit) (v : ViperCfg) :
    CmdResult :=
  match initLogger openFile v.logFile with
  | .error e => .fatalNoSession ("Failed to initialize logger:" ++ e)
  | .ok logger =>
    .sessionRun { readOnly := v.readOnly, logger := logger,
                  logCommands := v.enableCommandLogging,
                  enabledToolsets := v.toolsets }

/-- A sample configuration for concrete executions. -/
def cfg0 : runConfig :=
  { readOnly := false, logger := logNew, logCommands := false,
    enabledToolsets := [] }

/-- The schedule of a clean run: start up, goroutine sees end-of-stream and
reports nil, the supervisor reads it and returns. -/
def cleanSched : List Label :=
  [.fg, .fg, .fg, .fg, .fg, .fg, .goStep, .goListenRet none, .goSend,
   .selRecv, .fg]

/-- The final state of a clean run of `cleanSched`. -/
def sDoneClean : SysState :=
  { phase := .pDone none, gph := .gDone, ch := none, ctxInstalled := true,
    ctxCancelled := false,
    trace := [.evInitAnalytics, .evTrackStarted, .evInstallSignal, .evSetup,
              .evSpawn, .evPrintRunning, .evTapActive false, .evSend none,
              .evStop, .evClose, .evRet none] }

/-- A reachable Running state: the supervisor is at the select, the goroutine
is blocked in Listen. -/
def sSelList : SysState :=
  { phase := .pSelect, gph := .gListen, ch := none, ctxInstalled := true,
    ctxCancelled := false,
    trace := [.evInitAnalytics, .evTrackStarted, .evInstallSignal, .evSetup,
              .evSpawn, .evPrintRunning, .evTapActive false] }

/-- A reachable Running state in which an interruption has been observed while
the goroutine is still blocked in Listen. -/
def sSelInt : SysState :=
  { phase := .pSelect, gph := .gListen, ch := none, ctxInstalled := true,
    ctxCancelled := true,
    trace := [.evInitAnalytics, .evTrackStarted, .evInstallSignal, .evSetup,
              .evSpawn, .evPrintRunning, .evTapActive false] }

/-- A reachable Running state in which both select cases are ready at once:
the context is cancelled and the goroutine has already sent an error. -/
def sSelBoth : SysState :=
  { phase := .pSelect, gph := .gDone, ch := some (some "boom"),
    ctxInstalled := true, ctxCancelled := true,
    trace := [.evInitAnalytics, .evTrackStarted, .evInstallSignal, .evSetup,
              .evSpawn, .evPrintRunning, .evTapActive false,
              .evSend (some "boom")] }

/-- A reachable Running state in which Listen has just returned an error and
the goroutine is about to send it. -/
def sSendSt : SysState :=
  { phase := .pSelect, gph := .gSend (some "x"), ch := none,
    ctxInstalled := true, ctxCancelled := false,
    trace := [.evInitAnalytics, .evTrackStarted, .evInstallSignal, .evSetup,
              .evSpawn, .evPrintRunning, .evTapActive false] }

/-- Invariant of the transition system, established at `initState` and
preserved by every enabled step. -/
structure Inv (s : SysState) : Prop where
  /-- `analytics.Close()` has run exactly once when the supervisor has
  returned, and never before. -/
  close_count : countClose s.trace = (if isDone s.phase then 1 else 0)
  /-- once returned with result `r`, the trace contains the contiguous
  segment stop-close-return of `r`. -/
  done_shape : ∀ r, s.phase = .pDone r → teardownSeq r <:+: s.trace
  /-- the goroutine has sent on `errC` exactly once when it has finished. -/
  send_done : s.gph = .gDone → countSend s.trace = 1
  /-- before the goroutine's send, nothing has ever been sent on `errC` and
  the one-slot buffer is empty. -/
  send_not_done : s.gph ≠ .gDone → countSend s.trace = 0 ∧ s.ch = none
  /-- in the start-up phases the trace is exact and the goroutine does not
  exist yet. -/
  early_trace : ∀ tr, preTrace s.phase = some tr → s.trace = tr ∧ s.gph = .gNone
  /-- once the goroutine exists, the trace starts with the five start-up
  events (Track at position 1, spawn at position 4). -/
  spawned_start : s.gph ≠ .gNone → s.trace.take 5 = startPrefix

theorem countClose_append (l1 l2 : List Event) :
    countClose (l1 ++ l2) = countClose l1 + countClose l2 :=
  List.countP_append ..

theorem countSend_append (l1 l2 : List Event) :
    countSend (l1 ++ l2) = countSend l1 + countSend l2 :=
  List.countP_append ..

theorem countClose_stopCloseRet (r : Option Err) :
    countClose [Event.evStop, Event.evClose, Event.evRet r] = 1 := by
  simp [countClose, List.countP_cons, isCloseEv]

theorem countSend_stopCloseRet (r : Option Err) :
    countSend [Event.evStop, Event.evClose, Event.evRet r] = 0 := by
  simp [countSend, List.countP_cons, isSendEv]

theorem countSend_sendOne (r : Option Err) :
    countSend [Event.evSend r] = 1 := by
  simp [countSend, List.countP_cons, isSendEv]

theorem countClose_sendOne (r : Option Err) :
    countClose [Event.evSend r] = 0 := by
  simp [countClose, List.countP_cons, isCloseEv]

theorem countClose_tapOne (b : Bool) : countClose [Event.evTapActive b] = 0 := by
  simp [countClose, List.countP_cons, isCloseEv]

theorem countSend_tapOne (b : Bool) : countSend [Event.evTapActive b] = 0 := by
  simp [countSend, List.countP_cons, isSendEv]

theorem take5_append {l1 : List Event} (l2 : List Event)
    (h : l1.take 5 = startPrefix) : (l1 ++ l2).take 5 = startPrefix := by
  have h5 : 5 ≤ l1.length := by
    have hlen := congrArg List.length h
    simp [startPrefix] at hlen
    omega
  rw [List.take_append_of_le_length h5, h]

theorem inv_init : Inv initState := by
  refine ⟨?_, ?_, ?_, ?_, ?_, ?_⟩ <;>
    simp [initState, countClose, countSend, isDone, preTrace]

theorem inv_step {cfg : runConfig} {s s' : SysState} {l : Label}
    (hs : Inv s) (h : step cfg s l = some s') : Inv s' := by
  obtain ⟨hc, hd, hsd, hsnd, het, hsp⟩ := hs
  cases l with
  | fg =>
    cases hp : s.phase with
    | pInit =>
      obtain ⟨htr, hg⟩ := het [] (by rw [hp]; rfl)
      have hch := (hsnd (by simp [hg])).2
      simp only [step, hp, Option.some.injEq] at h
      subst h
      refine ⟨?_, ?_, ?_, ?_, ?_, ?_⟩
      · simp [isDone, htr]
        decide
      · simp [isDone]
      · simp [hg]
      · intro _
        refine ⟨?_, hch⟩
        simp [htr]
        decide
      · intro tr2 htr2
        simp [preTrace] at htr2
        subst htr2
        simp [htr, hg]
      · intro hgn
        simp [hg] at hgn
    | pTrack =>
      obtain ⟨htr, hg⟩ := het [.evInitAnalytics] (by rw [hp]; rfl)
      have hch := (hsnd (by simp [hg])).2
      simp only [step, hp, Option.some.injEq] at h
      subst h
      refine ⟨?_, ?_, ?_, ?_, ?_, ?_⟩
      · simp [isDone, htr]
        decide
      · simp [isDone]
      · simp [hg]
      · intro _
        refine ⟨?_, hch⟩
        simp [htr]
        decide
      · intro tr2 htr2
        simp [preTrace] at htr2
        subst htr2
        simp [htr, hg]
      · intro hgn
        simp [hg] at hgn
    | pCtx =>
      obtain ⟨htr, hg⟩ := het [.evInitAnalytics, .evTrackStarted] (by rw [hp]; rfl)
      have hch := (hsnd (by simp [hg])).2
      simp only [step, hp, Option.some.injEq] at h
      subst h
      refine ⟨?_, ?_, ?_, ?_, ?_, ?_⟩
      · simp [isDone, htr]
        decide
      · simp [isDone]
      · simp [hg]
      · intro _
        refine ⟨?_, hch⟩
        simp [htr]
        decide
      · intro tr2 htr2
        simp [preTrace] at htr2
        subst htr2
        simp [htr, hg]
      · intro hgn
        simp [hg] at hgn
    | pSetup =>
      obtain ⟨htr, hg⟩ := het [.evInitAnalytics, .evTrackStarted, .evInstallSignal] (by rw [hp]; rfl)
      have hch := (hsnd (by simp [hg])).2
      simp only [step, hp, Option.some.injEq] at h
      subst h
      refine ⟨?_, ?_, ?_, ?_, ?_, ?_⟩
      · simp [isDone, htr]
        decide
      · simp [isDone]
      · simp [hg]
      · intro _
        refine ⟨?_, hch⟩
        simp [htr]
        decide
      · intro tr2 htr2
        simp [preTrace] at htr2
        subst htr2
        simp [htr, hg]
      · intro hgn
        simp [hg] at hgn
    | pSpawn =>
      obtain ⟨htr, hg⟩ := het [.evInitAnalytics, .evTrackStarted, .evInstallSignal, .evSetup] (by rw [hp]; rfl)
      have hch := (hsnd (by simp [hg])).2
      simp only [step, hp, Option.some.injEq] at h
      subst h
      refine ⟨?_, ?_, ?_, ?_, ?_, ?_⟩
      · simp [isDone, htr]
        decide
      · simp [isDone]
      · simp [hg]
      · intro _
        refine ⟨?_, hch⟩
        simp [htr]
        decide
      · intro tr2 htr2
        simp [preTrace] at htr2
      · intro _
        simp only [htr]
        decide
    | pPrint =>
      have hc0 : countClose s.trace = 0 := by simpa [hp, isDone] using hc
      simp only [step, hp, Option.some.injEq] at h
      subst h
      refine ⟨?_, ?_, ?_, ?_, ?_, ?_⟩
      · simp [isDone, countClose_append, hc0]
        decide
      · simp [isDone]
      · intro hg
        have := hsd hg
        simp [countSend_append, this]
        decide
      · intro hg
        obtain ⟨h1, h2⟩ := hsnd hg
        refine ⟨?_, h2⟩
        simp [countSend_append, h1]
        decide
      · simp [preTrace]
      · intro hg
        exact take5_append _ (hsp hg)
    | pSelect => simp [step, hp] at h
    | pRetErr e =>
      have hc0 : countClose s.trace = 0 := by simpa [hp, isDone] using hc
      simp only [step, hp, Option.some.injEq] at h
      subst h
      refine ⟨?_, ?_, ?_, ?_, ?_, ?_⟩
      · simp [isDone, countClose_append, hc0, countClose_stopCloseRet]
      · intro r hr
        simp [isDone] at hr
        subst hr
        exact ⟨s.trace, [], by simp [teardownSeq]⟩
      · intro hg
        have := hsd hg
        simp [countSend_append, this, countSend_stopCloseRet]
      · intro hg
        obtain ⟨h1, h2⟩ := hsnd hg
        exact ⟨by simp [countSend_append, h1, countSend_stopCloseRet], h2⟩
      · simp [preTrace]
      · intro hg
        exact take5_append _ (hsp hg)
    | pRetNil =>
      have hc0 : countClose s.trace = 0 := by simpa [hp, isDone] using hc
      simp only [step, hp, Option.some.injEq] at h
      subst h
      refine ⟨?_, ?_, ?_, ?_, ?_, ?_⟩
      · simp [isDone, countClose_append, hc0, countClose_stopCloseRet]
      · intro r hr
        simp [isDone] at hr
        subst hr
        exact ⟨s.trace, [], by simp [teardownSeq]⟩
      · intro hg
        have := hsd hg
        simp [countSend_append, this, countSend_stopCloseRet]
      · intro hg
        obtain ⟨h1, h2⟩ := hsnd hg
        exact ⟨by simp [countSend_append, h1, countSend_stopCloseRet], h2⟩
      · simp [preTrace]
      · intro hg
        exact take5_append _ (hsp hg)
    | pDone r => simp [step, hp] at h
  | interrupt =>
    by_cases hi : s.ctxInstalled
    · simp only [step, hi, if_true, Option.some.injEq] at h
      subst h
      exact ⟨hc, hd, hsd, hsnd, het, hsp⟩
    · simp [step, hi] at h
  | selCtx =>
    simp only [step] at h
    split at h
    · rename_i hp hx
      rw [Option.some.injEq] at h
      subst h
      have hc0 : countClose s.trace = 0 := by simpa [hp, isDone] using hc
      refine ⟨?_, ?_, ?_, ?_, ?_, ?_⟩
      · simp [isDone, countClose_append, hc0]
        decide
      · simp [isDone]
      · intro hg
        have := hsd hg
        simp [countSend_append, this]
        decide
      · intro hg
        obtain ⟨h1, h2⟩ := hsnd hg
        refine ⟨?_, h2⟩
        simp [countSend_append, h1]
        decide
      · simp [preTrace]
      · intro hg
        exact take5_append _ (hsp hg)
    · exact Option.noConfusion h
  | selRecv =>
    simp only [step] at h
    split at h
    · rename_i r hp hx
      rw [Option.some.injEq] at h
      subst h
      have hc0 : countClose s.trace = 0 := by simpa [hp, isDone] using hc
      refine ⟨?_, ?_, ?_, ?_, ?_, ?_⟩
      · cases r <;> simp [isDone, hc0]
      · intro r' hr'
        cases r <;> simp [isDone] at hr'
      · intro hg
        exact hsd hg
      · intro hg
        exact ⟨(hsnd hg).1, rfl⟩
      · cases r <;> simp [preTrace]
      · intro hg
        exact hsp hg
    · exact Option.noConfusion h
  | goStep =>
    simp only [step] at h
    split at h
    · rename_i hg
      rw [Option.some.injEq] at h
      subst h
      obtain ⟨h1, h2⟩ := hsnd (by simp [hg])
      refine ⟨?_, ?_, ?_, ?_, ?_, ?_⟩
      · simp [isDone, countClose_append, hc, countClose_tapOne]
      · intro r hr
        exact (hd r hr).trans ⟨[], [Event.evTapActive cfg.logCommands], by simp⟩
      · simp
      · intro _
        exact ⟨by simp [countSend_append, h1, countSend_tapOne], h2⟩
      · intro tr htr
        obtain ⟨_, hgn⟩ := het tr htr
        rw [hg] at hgn
        exact absurd hgn (by simp)
      · intro _
        exact take5_append _ (hsp (by simp [hg]))
    · exact Option.noConfusion h
  | goListenRet r =>
    simp only [step] at h
    split at h
    · rename_i hg
      rw [Option.some.injEq] at h
      subst h
      refine ⟨hc, hd, ?_, ?_, ?_, ?_⟩
      · simp
      · intro _
        exact hsnd (by simp [hg])
      · intro tr htr
        obtain ⟨_, hgn⟩ := het tr htr
        rw [hg] at hgn
        exact absurd hgn (by simp)
      · intro _
        exact hsp (by simp [hg])
    · exact Option.noConfusion h
  | goSend =>
    simp only [step] at h
    split at h
    · rename_i r hg
      obtain ⟨h1, h2⟩ := hsnd (by simp [hg])
      rw [h2] at h
      rw [if_pos (show chanLen none < errCCap by decide)] at h
      rw [Option.some.injEq] at h
      subst h
      refine ⟨?_, ?_, ?_, ?_, ?_, ?_⟩
      · simp [isDone, countClose_append, hc, countClose_sendOne]
      · intro r' hr
        exact (hd r' hr).trans ⟨[], [Event.evSend r], by simp⟩
      · intro _
        simp [countSend_append, h1, countSend_sendOne]
      · simp
      · intro tr htr
        obtain ⟨_, hgn⟩ := het tr htr
        rw [hg] at hgn
        exact absurd hgn (by simp)
      · intro _
        exact take5_append _ (hsp (by simp [hg]))
    · exact Option.noConfusion h

theorem inv_runSched {cfg : runConfig} {s s' : SysState} {ls : List Label}
    (hs : Inv s) (h : runSched cfg s ls = some s') : Inv s' := by
  induction ls generalizing s with
  | nil =>
    simp only [runSched, Option.some.injEq] at h
    subst h
    exact hs
  | cons l ls ih =>
    rw [runSched] at h
    cases hstep : step cfg s l with
    | none => rw [hstep] at h; exact Option.noConfusion h
    | some s1 => rw [hstep] at h; exact ih (inv_step hs hstep) h

theorem reachable_inv {cfg : runConfig} {s : SysState} (h : Reachable cfg s) :
    Inv s := by
  obtain ⟨ls, hls⟩ := h
  exact inv_runSched inv_init hls

theorem runSched_append (cfg : runConfig) (s : SysState) (ls1 ls2 : List Label) :
    runSched cfg s (ls1 ++ ls2) =
      (runSched cfg s ls1).bind (fun s1 => runSched cfg s1 ls2) := by
  induction ls1 generalizing s with
  | nil => simp [runSched]
  | cons l ls ih =>
    rw [List.cons_append, runSched, runSched]
    cases step cfg s l with
    | none => simp
    | some s1 => simp [ih]

theorem reachable_extend {cfg : runConfig} {s s' : SysState} {ls : List Label}
    (h : Reachable cfg s) (h2 : runSched cfg s ls = some s') :
    Reachable cfg s' := by
  obtain ⟨ls0, h0⟩ := h
  exact ⟨ls0 ++ ls, by rw [runSched_append, h0]; exact h2⟩

theorem tapReadAll_fst (bs : List Nat) (t : IOLogger) :
    (tapReadAll bs t).1 = bs := by
  induction bs generalizing t with
  | nil => rfl
  | cons b bs ih => simp [tapReadAll, ih]

theorem tapWriteAll_fst (bs : List Nat) (t : IOLogger) :
    (tapWriteAll bs t).1 = bs := by
  induction bs generalizing t with
  | nil => rfl
  | cons b bs ih => simp [tapWriteAll, ih]

theorem tapReadAll_recorded (bs : List Nat) (t : IOLogger) :
    (tapReadAll bs t).2.recorded =
      t.recorded ++ bs.map (fun b => (true, b)) := by
  induction bs generalizing t with
  | nil => simp [tapReadAll]
  | cons b bs ih => simp [tapReadAll, ih]

theorem tapWriteAll_recorded (bs : List Nat) (t : IOLogger) :
    (tapWriteAll bs t).2.recorded =
      t.recorded ++ bs.map (fun b => (false, b)) := by
  induction bs generalizing t with
  | nil => simp [tapWriteAll]
  | cons b bs ih => simp [tapWriteAll, ih]

theorem step_eq_of_logCommands {cfg1 cfg2 : runConfig}
    (h : cfg1.logCommands = cfg2.logCommands) (s : SysState) (l : Label) :
    step cfg1 s l = step cfg2 s l := by
  cases l <;> simp [step, h]

/-- C1: for every execution of the supervisor, once it has returned with
result r the Telemetry Sink's close has run exactly once, contiguously right
before the return (stop, close and return form one trace segment), no matter
which event triggered shutdown; and from Running a present trigger lets the
supervisor finish teardown through two foreground steps of its own — the
schedules contain no step of the Message Loop goroutine, so the supervisor
never waits on the non-triggering path. -/
theorem close_exactly_once_no_hang :
    (∀ (cfg : runConfig) (s : SysState) (r : Option Err),
       Reachable cfg s → s.phase = .pDone r →
       countClose s.trace = 1 ∧ teardownSeq r <:+: s.trace) ∧
    (∀ (cfg : runConfig) (s : SysState),
       Reachable cfg s → s.phase = .pSelect →
       (s.ctxCancelled = true →
         ∃ s', runSched cfg s [Label.selCtx, Label.fg] = some s' ∧
           isDone s'.phase = true ∧ countClose s'.trace = 1) ∧
       (∀ r, s.ch = some r →
         ∃ s', runSched cfg s [Label.selRecv, Label.fg] = some s' ∧
           isDone s'.phase = true ∧ countClose s'.trace = 1)) := by
  constructor
  · intro cfg s r hr hp
    have hi := reachable_inv hr
    refine ⟨?_, hi.done_shape r hp⟩
    have hcc := hi.close_count
    rw [hp] at hcc
    simpa [isDone] using hcc
  · intro cfg s hr hp
    have hi := reachable_inv hr
    have hc0 : countClose s.trace = 0 := by
      have hcc := hi.close_count
      rw [hp] at hcc
      simpa [isDone] using hcc
    constructor
    · intro hcan
      refine ⟨{ s with
                phase := .pDone none,
                trace := s.trace ++ [.evLogShutdown, .evStop, .evClose,
                                     .evRet none] },
              ?_, rfl, ?_⟩
      · simp [runSched, step, hp, hcan]
      · simp [countClose_append, hc0]
        decide
    · intro r hch
      cases r with
      | none =>
        refine ⟨{ s with
                  ch := none, phase := .pDone none,
                  trace := s.trace ++ [.evStop, .evClose, .evRet none] },
                ?_, rfl, ?_⟩
        · simp [runSched, step, hp, hch]
        · simp [countClose_append, hc0, countClose_stopCloseRet]
      | some e =>
        refine ⟨{ s with
                  ch := none, phase := .pDone (some (wrapErr e)),
                  trace := s.trace ++ [.evStop, .evClose,
                                       .evRet (some (wrapErr e))] },
                ?_, rfl, ?_⟩
        · simp [runSched, step, hp, hch]
        · simp [countClose_append, hc0, countClose_stopCloseRet]

/-- C1 witness: the clean run ends with exactly one close, right before the
return. -/
theorem close_exactly_once_no_hang_witness :
    countClose sDoneClean.trace = 1 ∧ teardownSeq none <:+: sDoneClean.trace :=
  close_exactly_once_no_hang.1 cfg0 sDoneClean none
    ⟨cleanSched, by decide⟩ rfl

/-- C2: in Running, each of the two events is on its own sufficient to resolve
the select — a cancelled context enables the ctx.Done case and a buffered
terminal result enables the errC case, with no assumption about the other
event or about the goroutine's progress — and in either case one further
foreground step completes teardown; moreover no other step of the system
moves the supervisor out of Running, so the transition is triggered by
whichever of the two events occurs first. -/
theorem select_race_whichever_first :
    (∀ (cfg : runConfig) (s : SysState), s.phase = .pSelect →
       s.ctxCancelled = true →
       ∃ s1 s2, step cfg s Label.selCtx = some s1 ∧
         runSched cfg s1 [Label.fg] = some s2 ∧ isDone s2.phase = true) ∧
    (∀ (cfg : runConfig) (s : SysState) (r : Option Err), s.phase = .pSelect →
       s.ch = some r →
       ∃ s1 s2, step cfg s Label.selRecv = some s1 ∧
         runSched cfg s1 [Label.fg] = some s2 ∧ isDone s2.phase = true) ∧
    (∀ (cfg : runConfig) (s : SysState) (l : Label) (s' : SysState),
       s.phase = .pSelect → step cfg s l = some s' → s'.phase ≠ .pSelect →
       l = Label.selCtx ∨ l = Label.selRecv) := by
  refine ⟨?_, ?_, ?_⟩
  · intro cfg s hp hcan
    refine ⟨{ s with phase := .pRetNil, trace := s.trace ++ [.evLogShutdown] },
            { s with
              phase := .pDone none,
              trace := s.trace ++ [.evLogShutdown, .evStop, .evClose,
                                   .evRet none] },
            ?_, ?_, rfl⟩
    · simp [step, hp, hcan]
    · simp [runSched, step]
  · intro cfg s r hp hch
    cases r with
    | none =>
      refine ⟨{ s with ch := none, phase := .pRetNil },
              { s with
                ch := none, phase := .pDone none,
                trace := s.trace ++ [.evStop, .evClose, .evRet none] },
              ?_, ?_, rfl⟩
      · simp [step, hp, hch]
      · simp [runSched, step]
    | some e =>
      refine ⟨{ s with ch := none, phase := .pRetErr e },
              { s with
                ch := none, phase := .pDone (some (wrapErr e)),
                trace := s.trace ++ [.evStop, .evClose,
                                     .evRet (some (wrapErr e))] },
              ?_, ?_, rfl⟩
      · simp [step, hp, hch]
      · simp [runSched, step]
  · intro cfg s l s' hp hstep hne
    cases l with
    | fg =>
      simp only [step, hp] at hstep
      exact Option.noConfusion hstep
    | interrupt =>
      by_cases hi : s.ctxInstalled
      · simp only [step, hi, if_true, Option.some.injEq] at hstep
        subst hstep
        exact absurd hp hne
      · simp only [step, hi, if_false] at hstep
        exact Option.noConfusion hstep
    | selCtx => exact Or.inl rfl
    | selRecv => exact Or.inr rfl
    | goStep =>
      simp only [step] at hstep
      split at hstep
      · rw [Option.some.injEq] at hstep
        subst hstep
        exact absurd hp hne
      · exact Option.noConfusion hstep
    | goListenRet r =>
      simp only [step] at hstep
      split at hstep
      · rw [Option.some.injEq] at hstep
        subst hstep
        exact absurd hp hne
      · exact Option.noConfusion hstep
    | goSend =>
      simp only [step] at hstep
      split at hstep
      · split at hstep
        · rw [Option.some.injEq] at hstep
          subst hstep
          exact absurd hp hne
        · exact Option.noConfusion hstep
      · exact Option.noConfusion hstep

/-- C2 witness: at a Running state where both events are ready at once, each
select case resolves on its own and teardown completes; the ctx.Done case is
one of the two permitted exits. -/
theorem select_race_whichever_first_witness :
    (∃ s1 s2, step cfg0 sSelBoth Label.selCtx = some s1 ∧
       runSched cfg0 s1 [Label.fg] = some s2 ∧ isDone s2.phase = true) ∧
    (∃ s1 s2, step cfg0 sSelBoth Label.selRecv = some s1 ∧
       runSched cfg0 s1 [Label.fg] = some s2 ∧ isDone s2.phase = true) ∧
    (Label.selCtx = Label.selCtx ∨ Label.selCtx = Label.selRecv) :=
  ⟨select_race_whichever_first.1 cfg0 sSelBoth rfl rfl,
   select_race_whichever_first.2.1 cfg0 sSelBoth (some "boom") rfl rfl,
   select_race_whichever_first.2.2 cfg0 sSelBoth Label.selCtx
     { sSelBoth with
       phase := .pRetNil, trace := sSelBoth.trace ++ [.evLogShutdown] }
     rfl (by decide) (by decide)⟩

/-- C3: when shutdown is triggered by external interruption (the context is
cancelled and the ctx.Done case resolves the select while the loop is still
in Listen), the supervisor returns nil; whatever value the Message Loop later
writes to the result channel is ignored — it merely sits in the one-slot
buffer of the returned state. -/
theorem interruption_returns_clean :
    ∀ (cfg : runConfig) (s : SysState) (e : Option Err),
      Reachable cfg s → s.phase = .pSelect → s.ctxCancelled = true →
      s.gph = .gListen →
      ∃ s', runSched cfg s
          [Label.selCtx, Label.fg, Label.goListenRet e, Label.goSend] =
            some s' ∧
        s'.phase = .pDone none ∧ s'.ch = some e := by
  intro cfg s e hr hp hcan hg
  obtain ⟨-, hch⟩ := (reachable_inv hr).send_not_done (by simp [hg])
  refine ⟨{ s with
            phase := .pDone none, gph := .gDone, ch := some e,
            trace := s.trace ++ [.evLogShutdown, .evStop, .evClose,
                                 .evRet none, .evSend e] },
          ?_, rfl, rfl⟩
  simp [runSched, step, hp, hcan, hg, hch, chanLen, errCCap]

/-- C3 witness: from an interrupted Running state, the run returns nil and the
error the loop later reports is left unread in the channel. -/
theorem interruption_returns_clean_witness :
    ∃ s', runSched cfg0 sSelInt
        [Label.selCtx, Label.fg, Label.goListenRet (some "late"),
         Label.goSend] = some s' ∧
      s'.phase = .pDone none ∧ s'.ch = some (some "late") :=
  interruption_returns_clean cfg0 sSelInt (some "late")
    ⟨[.fg, .fg, .fg, .fg, .fg, .fg, .goStep, .interrupt], by decide⟩
    rfl rfl rfl

/-- C4: when the errC case wins the race with a non-nil error e, the
supervisor returns the wrapped error, and stdioCmd prints the fatal message
and exits with a non-zero status. -/
theorem loop_error_becomes_result :
    ∀ (cfg : runConfig) (s : SysState) (e : Err),
      s.phase = .pSelect → s.ch = some (some e) →
      ∃ s', runSched cfg s [Label.selRecv, Label.fg] = some s' ∧
        s'.phase = .pDone (some (wrapErr e)) ∧
        stdioCmdFinish (some (wrapErr e)) =
          { exitCode := 1,
            stderrFatal := some ("failed to run stdio server:" ++ wrapErr e) } ∧
        (stdioCmdFinish (some (wrapErr e))).exitCode ≠ 0 := by
  intro cfg s e hp hch
  refine ⟨{ s with
            ch := none, phase := .pDone (some (wrapErr e)),
            trace := s.trace ++ [.evStop, .evClose,
                                 .evRet (some (wrapErr e))] },
          ?_, rfl, rfl, by simp [stdioCmdFinish]⟩
  simp [runSched, step, hp, hch]

/-- C4 witness: a concrete Running state holding the loop error "boom". -/
theorem loop_error_becomes_result_witness :
    ∃ s', runSched cfg0 sSelBoth [Label.selRecv, Label.fg] = some s' ∧
      s'.phase = .pDone (some (wrapErr "boom")) ∧
      stdioCmdFinish (some (wrapErr "boom")) =
        { exitCode := 1,
          stderrFatal :=
            some ("failed to run stdio server:" ++ wrapErr "boom") } ∧
      (stdioCmdFinish (some (wrapErr "boom"))).exitCode ≠ 0 :=
  loop_error_becomes_result cfg0 sSelBoth "boom" rfl rfl

/-- C5: on an input stream that closes with no bytes sent the Message Loop
returns nil; feeding that nil result through the goroutine's send, the errC
select case and the final return yields a nil supervisor result and a
success exit status. -/
theorem empty_input_clean_exit :
    ∀ (cfg : runConfig) (s : SysState) (handle : Msg → Except Err Msg)
      (writeOut : Msg → Option Err),
      Reachable cfg s → s.phase = .pSelect → s.gph = .gListen →
      messageLoop handle writeOut [] = ([], none) ∧
      ∃ s', runSched cfg s
          [Label.goListenRet (messageLoop handle writeOut []).2,
           Label.goSend, Label.selRecv, Label.fg] = some s' ∧
        s'.phase = .pDone none ∧
        stdioCmdFinish none = { exitCode := 0, stderrFatal := none } := by
  intro cfg s handle writeOut hr hp hg
  obtain ⟨-, hch⟩ := (reachable_inv hr).send_not_done (by simp [hg])
  refine ⟨rfl,
          { s with
            gph := .gDone, ch := none, phase := .pDone none,
            trace := s.trace ++ [.evSend none, .evStop, .evClose,
                                 .evRet none] },
          ?_, rfl, rfl⟩
  simp [runSched, step, hp, hg, hch, messageLoop, chanLen, errCCap]

/-- C5 witness: Scenario A at a concrete Running state with identity handler
and failure-free output. -/
theorem empty_input_clean_exit_witness :
    messageLoop (fun m => .ok m) (fun _ => none) [] = ([], none) ∧
    ∃ s', runSched cfg0 sSelList
        [Label.goListenRet ((messageLoop (fun m => .ok m)
           (fun _ => none) []).2),
         Label.goSend, Label.selRecv, Label.fg] = some s' ∧
      s'.phase = .pDone none ∧
      stdioCmdFinish none = { exitCode := 0, stderrFatal := none } :=
  empty_input_clean_exit cfg0 sSelList (fun m => .ok m) (fun _ => none)
    ⟨[.fg, .fg, .fg, .fg, .fg, .fg, .goStep], by decide⟩ rfl rfl

/-- C6: the errC channel has a buffer of exactly one slot; in every reachable
state where the goroutine is about to send, the buffer is still empty so the
send succeeds immediately — with no assumption on the supervisor's phase, so
in particular also when the supervisor already returned through the
interruption path and never reads the channel; and every reachable trace
contains at most one send, exactly one once the goroutine has finished. -/
theorem errC_one_slot_send_once :
    errCCap = 1 ∧
    (∀ (cfg : runConfig) (s : SysState) (r : Option Err),
       Reachable cfg s → s.gph = .gSend r →
       s.ch = none ∧
       step cfg s Label.goSend =
         some { s with
                ch := some r, gph := .gDone,
                trace := s.trace ++ [.evSend r] }) ∧
    (∀ (cfg : runConfig) (s : SysState), Reachable cfg s →
       countSend s.trace ≤ 1 ∧
       (s.gph = .gDone → countSend s.trace = 1)) := by
  refine ⟨rfl, ?_, ?_⟩
  · intro cfg s r hr hg
    obtain ⟨-, hch⟩ := (reachable_inv hr).send_not_done (by simp [hg])
    refine ⟨hch, ?_⟩
    simp [step, hg, hch, chanLen, errCCap]
  · intro cfg s hr
    have hi := reachable_inv hr
    by_cases hg : s.gph = .gDone
    · have h1 := hi.send_done hg
      exact ⟨by omega, fun _ => h1⟩
    · have h0 := (hi.send_not_done hg).1
      exact ⟨by omega, fun hx => absurd hx hg⟩

/-- C6 witness: a reachable state whose goroutine is about to send an error;
the buffer is empty and the send completes in one step. -/
theorem errC_one_slot_send_once_witness :
    sSendSt.ch = none ∧
    step cfg0 sSendSt Label.goSend =
      some { sSendSt with
             ch := some (some "x"), gph := .gDone,
             trace := sSendSt.trace ++ [.evSend (some "x")] } :=
  errC_one_slot_send_once.2.1 cfg0 sSendSt (some "x")
    ⟨[.fg, .fg, .fg, .fg, .fg, .fg, .goStep, .goListenRet (some "x")],
     by decide⟩ rfl

/-- C7: in every reachable state in which the goroutine exists — hence before
and during everything the Message Loop ever does — the trace starts with the
five fixed start-up events, with the telemetry "server started" Track at
position 1, strictly before the goroutine spawn at position 4. -/
theorem track_before_loop_start :
    ∀ (cfg : runConfig) (s : SysState),
      Reachable cfg s → s.gph ≠ .gNone →
      s.trace.take 5 = startPrefix ∧
      s.trace.get? 1 = some .evTrackStarted ∧
      s.trace.get? 4 = some .evSpawn := by
  intro cfg s hr hg
  have h5 := (reachable_inv hr).spawned_start hg
  refine ⟨h5, ?_, ?_⟩
  · have h1 : (s.trace.take 5).get? 1 = startPrefix.get? 1 := by rw [h5]
    rw [List.get?_take (by norm_num)] at h1
    simpa [startPrefix] using h1
  · have h4 : (s.trace.take 5).get? 4 = startPrefix.get? 4 := by rw [h5]
    rw [List.get?_take (by norm_num)] at h4
    simpa [startPrefix] using h4

/-- C7 witness: the concrete Running state with the goroutine in Listen. -/
theorem track_before_loop_start_witness :
    sSelList.trace.take 5 = startPrefix ∧
    sSelList.trace.get? 1 = some .evTrackStarted ∧
    sSelList.trace.get? 4 = some .evSpawn :=
  track_before_loop_start cfg0 sSelList
    ⟨[.fg, .fg, .fg, .fg, .fg, .fg, .goStep], by decide⟩ (by decide)

/-- C8: the Recording Tap is transparent: for every input and output byte
sequence, the bytes the Message Loop reads through the tap and the bytes
delivered through it to the output are exactly the raw sequences, the only
difference being the side effect of recording (every byte, in transit
order). -/
theorem tap_transparency :
    ∀ (input output : List Nat) (t : IOLogger),
      (tapReadAll input t).1 = rawReadAll input ∧
      (tapWriteAll output t).1 = rawWriteAll output ∧
      (tapReadAll input ⟨[]⟩).2.recorded =
        input.map (fun b => (true, b)) ∧
      (tapWriteAll output ⟨[]⟩).2.recorded =
        output.map (fun b => (false, b)) := by
  intro input output t
  refine ⟨tapReadAll_fst .., tapWriteAll_fst .., ?_, ?_⟩
  · simpa using tapReadAll_recorded input ⟨[]⟩
  · simpa using tapWriteAll_recorded output ⟨[]⟩

/-- C9: failing to open a non-empty log-file path makes stdioCmd abort via
stdlog.Fatal before any session exists, while an empty path always yields the
default logger writing to the default process output. -/
theorem config_error_fatal_before_session :
    (∀ (openFile : String → Except Err Unit) (v : ViperCfg) (e : Err),
       v.logFile ≠ "" → openFile v.logFile = .error e →
       stdioCmdRun openFile v =
         .fatalNoSession ("Failed to initialize logger:" ++
           ("failed to open log file: " ++ e))) ∧
    (∀ openFile : String → Except Err Unit,
       initLogger openFile "" = .ok logNew ∧
       logNew.output = .processDefault) := by
  constructor
  · intro openFile v e hne hopen
    simp [stdioCmdRun, initLogger, hne, hopen]
  · intro openFile
    exact ⟨by simp [initLogger], rfl⟩

/-- C9 witness: a concrete path whose open fails with a permission error. -/
theorem config_error_fatal_before_session_witness :
    stdioCmdRun (fun _ => .error "permission denied")
      { logFile := "/var/log/mcp.log", readOnly := false, toolsets := [],
        enableCommandLogging := false } =
      .fatalNoSession ("Failed to initialize logger:" ++
        ("failed to open log file: " ++ "permission denied")) :=
  config_error_fatal_before_session.1 (fun _ => .error "permission denied")
    { logFile := "/var/log/mcp.log", readOnly := false, toolsets := [],
      enableCommandLogging := false } "permission denied" (by decide) rfl

/-- C10: the supervisor's behavior is independent of the read-only flag and the
enabled-toolset names: two configurations that agree on the logger and the
command-logging flag (i.e. differ only in readOnly and enabledToolsets)
produce identical executions under every schedule. -/
theorem behavior_independent_of_readOnly_toolsets :
    ∀ (cfg1 cfg2 : runConfig),
      cfg1.logger = cfg2.logger → cfg1.logCommands = cfg2.logCommands →
      ∀ (s : SysState) (ls : List Label),
        runSched cfg1 s ls = runSched cfg2 s ls := by
  intro cfg1 cfg2 _ hlc s ls
  induction ls generalizing s with
  | nil => rfl
  | cons l ls ih =>
    rw [runSched, runSched, step_eq_of_logCommands hlc]
    cases step cfg2 s l with
    | none => rfl
    | some s1 => exact ih s1

/-- C10 witness: flipping readOnly and the toolset list leaves the clean run
unchanged. -/
theorem behavior_independent_witness :
    runSched { readOnly := true, logger := logNew, logCommands := false,
               enabledToolsets := ["registry"] } initState cleanSched =
      runSched cfg0 initState cleanSched :=
  behavior_independent_of_readOnly_toolsets
    { readOnly := true, logger := logNew, logCommands := false,
      enabledToolsets := ["registry"] } cfg0 rfl rfl initState cleanSched

end HcpMcp
